import Mathlib

/-!
Verification of the EasyEnv gaussian-splat standardization and compact
encoding pipeline (`EasyEnv/sharp_wrapper.py`: `standardize_ply`,
`save_as_splat`), the color derivation used by the Blender preview paths
(`EasyEnv/__init__.py`, `3dgs_render_by_kiri_engine_4.1.4/__init__.py`),
and the import-time attribute checks of both addons.

Scalar values stored in a raw point cloud are float32 and may be NaN or
±infinity; we embed them as an inductive `Val` whose finite case carries a
real number.  The standardizer performs no arithmetic, so it is modelled on
`Val` columns directly.  The compact encoder runs on the standardized
(all-finite) array, so it is modelled on rows of real numbers; float32
serialization is abstracted as four tagged wire bytes per value.
-/

namespace EasyEnv

/-- A float32 cell of a raw attribute column: finite (carrying its real
value) or one of the non-finite IEEE values. -/
inductive Val
  | fin (x : ℝ)
  | nan
  | posInf
  | negInf

/-- The `np.isfinite` test on one cell. -/
def Val.isFinite : Val → Bool
  | .fin _ => true
  | _ => false

/-- An in-memory columnar point cloud: ordered list of named columns
(the structured-array `data` of `standardize_ply`). -/
structure Store where
  cols : List (String × List Val)

/-- Column lookup by name (structured-array field access `data[prop]`). -/
def Store.lookup (s : Store) (n : String) : Option (List Val) :=
  (s.cols.find? (fun p => p.1 == n)).map Prod.snd

/-- The value `len(data)`: the row count of the structured array, read off the first
column (all columns of a structured array have this common length). -/
def Store.numRows (s : Store) : Nat :=
  ((s.cols.head?).map (fun c => c.2.length)).getD 0

/-- The store invariant: every column has length `n`. -/
def Store.uniform (s : Store) (n : Nat) : Prop :=
  ∀ p ∈ s.cols, p.2.length = n

/-- Errors surfaced by standardization.  A missing required field aborts
the run (the source's dynamic field access raises on the first absent
name); the spec models this as its `SchemaError`. -/
inductive StdErr
  | schemaError (missing : String)
deriving DecidableEq

/-- The required vertex schema of `standardize_ply`, in the source's
iteration order. -/
def required : List String :=
  ["x", "y", "z", "f_dc_0", "f_dc_1", "f_dc_2", "opacity",
   "scale_0", "scale_1", "scale_2", "rot_0", "rot_1", "rot_2", "rot_3"]

/-- Canonical standardized column order (the `dtype_standard` of
`standardize_ply`). -/
def canonicalOrder : List String :=
  ["x", "y", "z", "scale_0", "scale_1", "scale_2",
   "rot_0", "rot_1", "rot_2", "rot_3",
   "f_dc_0", "f_dc_1", "f_dc_2", "opacity"]

/-- Accumulation of `valid_mask &= np.isfinite(data[prop])` over `props`;
field access on a missing name aborts. -/
def buildMask (s : Store) : List String → List Bool → Except StdErr (List Bool)
  | [], m => .ok m
  | p :: ps, m =>
    match s.lookup p with
    | some col => buildMask s ps (List.zipWith and m (col.map Val.isFinite))
    | none => .error (.schemaError p)

/-- Boolean-mask row selection `col[valid_mask]`. -/
def maskFilter (mask : List Bool) (col : List Val) : List Val :=
  (List.zip col mask).filterMap (fun vb => if vb.2 then some vb.1 else none)

/-- Monadic field access: `data[prop]` with a missing field aborting. -/
def getColE (s : Store) (n : String) : Except StdErr (List Val) :=
  match s.lookup n with
  | some col => .ok col
  | none => .error (.schemaError n)

/-- Row `i` of column `p` is present and finite (a `Bool`, mirroring one
conjunct of the vectorized `np.isfinite(data[prop])`). -/
def colFiniteB (s : Store) (p : String) (i : Nat) : Bool :=
  match s.lookup p with
  | some col => ((col[i]?).map Val.isFinite).getD false
  | none => false

/-- The core of `standardize_ply` (after the PLY file has been read):
build the finiteness mask over the required fields, filter rows, assemble
the canonical 14-column array (copying 10 columns verbatim and relabeling
the quaternion columns WXYZ→XYZW), and return it with `(kept, dropped)`.
Writing the standardized PLY and the `.splat` file are downstream
consumers of the returned array.  The chain of `bind`s mirrors the
source's sequence of field accesses, each of which aborts if the field is
absent. -/
def standardize (s : Store) : Except StdErr (Store × Nat × Nat) :=
  (buildMask s required (List.replicate s.numRows true)).bind fun mask =>
  ((getColE s "x").map (maskFilter mask)).bind fun cx =>
  ((getColE s "y").map (maskFilter mask)).bind fun cy =>
  ((getColE s "z").map (maskFilter mask)).bind fun cz =>
  ((getColE s "scale_0").map (maskFilter mask)).bind fun cs0 =>
  ((getColE s "scale_1").map (maskFilter mask)).bind fun cs1 =>
  ((getColE s "scale_2").map (maskFilter mask)).bind fun cs2 =>
  ((getColE s "f_dc_0").map (maskFilter mask)).bind fun cf0 =>
  ((getColE s "f_dc_1").map (maskFilter mask)).bind fun cf1 =>
  ((getColE s "f_dc_2").map (maskFilter mask)).bind fun cf2 =>
  ((getColE s "opacity").map (maskFilter mask)).bind fun cop =>
  ((getColE s "rot_1").map (maskFilter mask)).bind fun cr0 =>
  ((getColE s "rot_2").map (maskFilter mask)).bind fun cr1 =>
  ((getColE s "rot_3").map (maskFilter mask)).bind fun cr2 =>
  ((getColE s "rot_0").map (maskFilter mask)).bind fun cr3 =>
  .ok
    (⟨[("x", cx), ("y", cy), ("z", cz),
       ("scale_0", cs0), ("scale_1", cs1), ("scale_2", cs2),
       ("rot_0", cr0), ("rot_1", cr1), ("rot_2", cr2), ("rot_3", cr3),
       ("f_dc_0", cf0), ("f_dc_1", cf1), ("f_dc_2", cf2), ("opacity", cop)]⟩,
     cx.length, s.numRows - cx.length)

/-- One row of the standardized 14-column array (the `row` iterated over
by `save_as_splat`; field set and names follow `dtype_standard`). -/
structure SplatRow where
  x : ℝ
  y : ℝ
  z : ℝ
  scale_0 : ℝ
  scale_1 : ℝ
  scale_2 : ℝ
  rot_0 : ℝ
  rot_1 : ℝ
  rot_2 : ℝ
  rot_3 : ℝ
  f_dc_0 : ℝ
  f_dc_1 : ℝ
  f_dc_2 : ℝ
  opacity : ℝ

/-- One byte of the compact `.splat` stream: either byte `idx` of the
little-endian IEEE-754 float32 encoding of the real value `v`, or a plain
unsigned byte. -/
inductive WireByte
  | f32 (idx : Fin 4) (v : ℝ)
  | u8 (b : Nat)

/-- Serialization `np.float32(v).tobytes()`: the four little-endian bytes of one
float32 value. -/
def f32le (v : ℝ) : List WireByte :=
  [.f32 0 v, .f32 1 v, .f32 2 v, .f32 3 v]

/-- Conversion `np.clip(c, 0, 255).astype(np.uint8)`: clamp to `[0,255]` then cast,
which truncates the fractional part (floor, as the clamped value is
nonnegative). -/
noncomputable def toU8 (c : ℝ) : Nat :=
  (Int.floor (min (max c 0) 255)).toNat

/-- The `SH_C0` constant of `save_as_splat`. -/
noncomputable def SH_C0 : ℝ := 0.28209479177387814

/-- The alpha channel computed by `save_as_splat` before scaling to a
byte: `1 / (1 + np.exp(-row['opacity']))`. -/
noncomputable def encAlpha (v : ℝ) : ℝ := 1 / (1 + Real.exp (-v))

/-- Step 3 of `save_as_splat`: the four color/opacity bytes `r,g,b,a`. -/
noncomputable def colorBytes (row : SplatRow) : List Nat :=
  [toU8 ((0.5 + SH_C0 * row.f_dc_0) * 255),
   toU8 ((0.5 + SH_C0 * row.f_dc_1) * 255),
   toU8 ((0.5 + SH_C0 * row.f_dc_2) * 255),
   toU8 (encAlpha row.opacity * 255)]

/-- The read `q = np.array([row['rot_1'], row['rot_2'], row['rot_3'], row['rot_0']])`:
the component order in which `save_as_splat` reads the quaternion from the
(already standardized) row. -/
def rotQuatRead (row : SplatRow) : ℝ × ℝ × ℝ × ℝ :=
  (row.rot_1, row.rot_2, row.rot_3, row.rot_0)

/-- The norm `np.linalg.norm(q)`: the Euclidean norm of the read quaternion. -/
noncomputable def quatMag (row : SplatRow) : ℝ :=
  Real.sqrt (row.rot_1 ^ 2 + row.rot_2 ^ 2 + row.rot_3 ^ 2 + row.rot_0 ^ 2)

/-- Under the guard `if mag > 0: q /= mag` — components after the guarded normalization. -/
noncomputable def normQuat (row : SplatRow) : ℝ × ℝ × ℝ × ℝ :=
  if quatMag row > 0 then
    (row.rot_1 / quatMag row, row.rot_2 / quatMag row,
     row.rot_3 / quatMag row, row.rot_0 / quatMag row)
  else rotQuatRead row

/-- One rotation byte: `(c * 128 + 128).clip(0, 255).astype(np.uint8)`. -/
noncomputable def rotByte (c : ℝ) : Nat := toU8 (c * 128 + 128)

/-- Step 4 of `save_as_splat`: the four rotation bytes, in the order the
components were read. -/
noncomputable def rotBytes (row : SplatRow) : List Nat :=
  [rotByte (normQuat row).1, rotByte (normQuat row).2.1,
   rotByte (normQuat row).2.2.1, rotByte (normQuat row).2.2.2]

/-- One 32-byte record of `save_as_splat`: position (12 bytes), `exp` of
the log-scales (12 bytes), color/opacity (4 bytes), rotation (4 bytes),
in the order the source writes them. -/
noncomputable def encodeRow (row : SplatRow) : List WireByte :=
  f32le row.x ++ f32le row.y ++ f32le row.z ++
  f32le (Real.exp row.scale_0) ++ f32le (Real.exp row.scale_1) ++
  f32le (Real.exp row.scale_2) ++
  (colorBytes row).map WireByte.u8 ++
  (rotBytes row).map WireByte.u8

/-- The output stream of `save_as_splat`: the records of all rows, in row
order. -/
noncomputable def encodeSplat : List SplatRow → List WireByte
  | [] => []
  | r :: rs => encodeRow r ++ encodeSplat rs

/-! The color derivation used by the interactive preview paths
(`EasyEnv/__init__.py` and the 3DGS-render addon compute the `Col`
attribute with the same four lines). -/

/-- The `SH_0` constant of the preview color loop. -/
noncomputable def SH_0 : ℝ := 0.28209479177387814

/-- Preview `R` (identically `G`, `B` on the other coefficients):
`max(0.0, min(1.0, f_dc * SH_0 + 0.5))`. -/
noncomputable def deriveChannel (c : ℝ) : ℝ := max 0 (min 1 (c * SH_0 + 0.5))

/-- Preview `A`: `max(0.0, min(1.0, 1 / (1 + np.exp(-opacity))))`. -/
noncomputable def deriveAlpha (v : ℝ) : ℝ :=
  max 0 (min 1 (1 / (1 + Real.exp (-v))))

/-! Import-time attribute checks of the two addons. -/

/-- Required mesh attributes of the 3DGS-render addon's Import PLY
operator (`SNA_OT_Dgs_Render_Import_Ply_E0A3A.execute`). -/
def kiriRequiredAttributes : List String :=
  ["f_dc_0", "f_dc_1", "f_dc_2", "opacity", "scale_0", "scale_1", "scale_2",
   "rot_0", "rot_1", "rot_2", "rot_3", "f_rest_0"]

/-- Required mesh attributes of EasyEnv's
`SNA_OT_Generate_Gaussians_From_Image.execute` import path. -/
def easyenvRequiredAttributes : List String :=
  ["f_dc_0", "f_dc_1", "f_dc_2", "opacity", "scale_0", "scale_1", "scale_2",
   "rot_0", "rot_1", "rot_2", "rot_3"]

/-- The `missing_attrs` accumulation loop: every required name absent from
the mesh's attributes, in required order. -/
def missingAttrs (req attrs : List String) : List String :=
  req.filter (fun a => !(attrs.contains a))

/-- Outcome of the attribute check in an import operator. -/
inductive ImportCheck
  | cancelled (missing : List String)
  | proceed
deriving DecidableEq

/-- The decision `if missing_attrs: report ERROR (all names); return CANCELLED`. -/
def kiriImportPlyCheck (attrs : List String) : ImportCheck :=
  let m := missingAttrs kiriRequiredAttributes attrs
  if m.isEmpty then .proceed else .cancelled m

/-- The same check in EasyEnv's operator (no `f_rest_0` in its list). -/
def easyenvImportCheck (attrs : List String) : ImportCheck :=
  let m := missingAttrs easyenvRequiredAttributes attrs
  if m.isEmpty then .proceed else .cancelled m

/-- A standardized row with every field zero (so
`f_dc_* = opacity = 0` and the quaternion is the zero 4-tuple). -/
noncomputable def zeroRow : SplatRow :=
  ⟨0, 0, 0, 0, 0, 0, 0, 0, 0, 0, 0, 0, 0, 0⟩

/-- A standardized row whose quaternion columns hold the XYZW identity
quaternion `(0, 0, 0, 1)` (so `rot_3`, the standardized `w`, is 1). -/
noncomputable def unitWRow : SplatRow :=
  { zeroRow with rot_3 := 1 }

/-- The byte the spec prescribes for a color channel already in `[0,1]`:
`round(clamp(channel,0,1) * 255)`. -/
noncomputable def roundColorByte (c : ℝ) : Nat :=
  (round (min (max c 0) 1 * 255)).toNat

/-- A one-row store carrying the full required schema (source column
order), every value the finite 1.0. -/
noncomputable def sampleStore : Store :=
  ⟨[("x", [Val.fin 1]), ("y", [Val.fin 1]), ("z", [Val.fin 1]),
    ("f_dc_0", [Val.fin 1]), ("f_dc_1", [Val.fin 1]), ("f_dc_2", [Val.fin 1]),
    ("opacity", [Val.fin 1]),
    ("scale_0", [Val.fin 1]), ("scale_1", [Val.fin 1]), ("scale_2", [Val.fin 1]),
    ("rot_0", [Val.fin 1]), ("rot_1", [Val.fin 1]), ("rot_2", [Val.fin 1]),
    ("rot_3", [Val.fin 1])]⟩

/-- The standardized image of `sampleStore` (canonical column order). -/
noncomputable def canonSample : Store :=
  ⟨[("x", [Val.fin 1]), ("y", [Val.fin 1]), ("z", [Val.fin 1]),
    ("scale_0", [Val.fin 1]), ("scale_1", [Val.fin 1]), ("scale_2", [Val.fin 1]),
    ("rot_0", [Val.fin 1]), ("rot_1", [Val.fin 1]), ("rot_2", [Val.fin 1]),
    ("rot_3", [Val.fin 1]),
    ("f_dc_0", [Val.fin 1]), ("f_dc_1", [Val.fin 1]), ("f_dc_2", [Val.fin 1]),
    ("opacity", [Val.fin 1])]⟩

end EasyEnv

namespace EasyEnv

/-! ### Helper lemmas -/

lemma toU8_of_bounds {c : ℝ} (h0 : 0 ≤ c) (h255 : c ≤ 255) :
    toU8 c = (Int.floor c).toNat := by
  rw [toU8, max_eq_left h0, min_eq_left h255]

lemma clamp_scale (x : ℝ) :
    min (max (x * 255) 0) 255 = max 0 (min 1 x) * 255 := by
  rcases le_total x 0 with h | h
  · rw [max_eq_right (by nlinarith : x * 255 ≤ 0),
      min_eq_left (by norm_num : (0 : ℝ) ≤ 255),
      min_eq_right (h.trans zero_le_one), max_eq_left h, zero_mul]
  · rcases le_total x 1 with h1 | h1
    · rw [max_eq_left (by nlinarith : (0 : ℝ) ≤ x * 255),
        min_eq_left (by nlinarith : x * 255 ≤ 255),
        min_eq_right h1, max_eq_right h]
    · rw [max_eq_left (by nlinarith : (0 : ℝ) ≤ x * 255),
        min_eq_right (by nlinarith : (255 : ℝ) ≤ x * 255),
        min_eq_left h1, max_eq_right zero_le_one, one_mul]

lemma encAlpha_pos (v : ℝ) : 0 < encAlpha v := by
  have h := Real.exp_pos (-v)
  exact div_pos one_pos (by linarith)

lemma encAlpha_lt_one (v : ℝ) : encAlpha v < 1 := by
  have h := Real.exp_pos (-v)
  rw [encAlpha, div_lt_one (by linarith)]
  linarith

lemma encAlpha_zero : encAlpha 0 = 1 / 2 := by
  rw [encAlpha, neg_zero, Real.exp_zero]
  norm_num

lemma deriveAlpha_eq (v : ℝ) : deriveAlpha v = encAlpha v := by
  have h1 : deriveAlpha v = max 0 (min 1 (encAlpha v)) := rfl
  rw [h1, min_eq_right (encAlpha_lt_one v).le,
    max_eq_right (encAlpha_pos v).le]

lemma deriveChannel_zero : deriveChannel 0 = 1 / 2 := by
  rw [deriveChannel, zero_mul, zero_add]
  norm_num

lemma floor_half255 : Int.floor ((1 / 2 : ℝ) * 255) = 127 := by
  norm_num

lemma toU8_128 : toU8 128 = 128 := by
  rw [toU8_of_bounds (by norm_num) (by norm_num)]
  norm_num
  rfl

lemma toU8_256 : toU8 256 = 255 := by
  rw [toU8, max_eq_left (by norm_num), min_eq_right (by norm_num)]
  norm_num
  rfl

/-! ### C7: ColorDeriver totality, boundedness, exact midpoints -/

/-- C7: the color derivation is a total function; for all real inputs
every channel lies in `[0,1]`; the unclamped sigmoid already lies strictly
inside `(0,1)` for every opacity, however extreme; `opacity = 0` gives
`A = 1/2` exactly and `f_dc = 0` gives the channel `1/2` exactly. -/
theorem colorDeriver_total_bounded :
    (∀ c : ℝ, 0 ≤ deriveChannel c ∧ deriveChannel c ≤ 1) ∧
    (∀ v : ℝ, 0 ≤ deriveAlpha v ∧ deriveAlpha v ≤ 1) ∧
    (∀ v : ℝ, 0 < encAlpha v ∧ encAlpha v < 1) ∧
    deriveChannel 0 = 1 / 2 ∧ deriveAlpha 0 = 1 / 2 := by
  refine ⟨fun c => ⟨le_max_left _ _, max_le zero_le_one (min_le_left _ _)⟩,
    fun v => ⟨le_max_left _ _, max_le zero_le_one (min_le_left _ _)⟩,
    fun v => ⟨encAlpha_pos v, encAlpha_lt_one v⟩,
    deriveChannel_zero, ?_⟩
  rw [deriveAlpha_eq, encAlpha_zero]

/-! ### C2: color byte quantization -/

lemma SH_C0_eq : SH_C0 = SH_0 := rfl

lemma toU8_channel (f : ℝ) :
    toU8 ((0.5 + SH_C0 * f) * 255) = (Int.floor (deriveChannel f * 255)).toNat := by
  rw [toU8, clamp_scale]
  have h : max 0 (min 1 (0.5 + SH_C0 * f)) = deriveChannel f := by
    rw [deriveChannel, SH_C0_eq]
    ring_nf
  rw [h]

lemma toU8_alpha (v : ℝ) :
    toU8 (encAlpha v * 255) = (Int.floor (deriveAlpha v * 255)).toNat := by
  rw [toU8, clamp_scale]
  have h : max 0 (min 1 (encAlpha v)) = deriveAlpha v := rfl
  rw [h]

/-- C2 (amended): each color/opacity byte written by `save_as_splat` is
the truncation `⌊channel * 255⌋` of the scaled ColorDeriver channel
(after clamping to `[0,255]`), not its rounding. -/
theorem colorBytes_truncated (row : SplatRow) :
    colorBytes row =
      [(Int.floor (deriveChannel row.f_dc_0 * 255)).toNat,
       (Int.floor (deriveChannel row.f_dc_1 * 255)).toNat,
       (Int.floor (deriveChannel row.f_dc_2 * 255)).toNat,
       (Int.floor (deriveAlpha row.opacity * 255)).toNat] := by
  rw [colorBytes, toU8_channel, toU8_channel, toU8_channel, toU8_alpha]

lemma toU8_half : toU8 ((1 / 2 : ℝ) * 255) = 127 := by
  rw [toU8_of_bounds (by norm_num) (by norm_num), floor_half255]
  rfl

/-- C2 (counterexample): on a standardized row with all-zero color
coefficients and zero opacity, the encoder emits the bytes
`(127,127,127,127)`, not the claimed `(128,128,128,128)`; rounding the
ColorDeriver channels as the claim prescribes would give 128. -/
theorem colorBytes_zero_counterexample :
    colorBytes zeroRow = [127, 127, 127, 127] ∧
    colorBytes zeroRow ≠ [128, 128, 128, 128] ∧
    roundColorByte (deriveChannel 0) = 128 ∧
    roundColorByte (deriveAlpha 0) = 128 := by
  have hz : (0.5 + SH_C0 * (0 : ℝ)) * 255 = (1 / 2 : ℝ) * 255 := by norm_num
  have ha : encAlpha (0 : ℝ) * 255 = (1 / 2 : ℝ) * 255 := by
    rw [encAlpha_zero]
  have h1 : colorBytes zeroRow = [127, 127, 127, 127] := by
    show [toU8 ((0.5 + SH_C0 * (0 : ℝ)) * 255),
          toU8 ((0.5 + SH_C0 * (0 : ℝ)) * 255),
          toU8 ((0.5 + SH_C0 * (0 : ℝ)) * 255),
          toU8 (encAlpha (0 : ℝ) * 255)] = _
    rw [hz, ha, toU8_half]
  have hround : roundColorByte ((1 / 2 : ℝ)) = 128 := by
    rw [roundColorByte, max_eq_left (by norm_num), min_eq_left (by norm_num),
      round_eq]
    norm_num
    rfl
  refine ⟨h1, by rw [h1]; decide, ?_, ?_⟩
  · rw [deriveChannel_zero]; exact hround
  · rw [deriveAlpha_eq, encAlpha_zero]; exact hround

/-! ### C1: rotation byte component order -/

lemma rotByte_zero : rotByte 0 = 128 := by
  have h : (0 : ℝ) * 128 + 128 = 128 := by norm_num
  rw [rotByte, h, toU8_128]

lemma rotByte_one : rotByte 1 = 255 := by
  have h : (1 : ℝ) * 128 + 128 = 256 := by norm_num
  rw [rotByte, h, toU8_256]

/-- C1 (failing input): on a standardized row holding the XYZW identity
quaternion `(0,0,0,1)` (unit norm, so normalization divides by 1),
`save_as_splat` emits the rotation bytes `(128,128,255,128)` — it re-reads
the already-permuted columns in the order
`(rot_1, rot_2, rot_3, rot_0)` — and not the claimed `(128,128,128,255)`. -/
theorem rotBytes_unitW_eval :
    rotBytes unitWRow = [128, 128, 255, 128] ∧
    rotBytes unitWRow ≠ [128, 128, 128, 255] := by
  have hsum : unitWRow.rot_1 ^ 2 + unitWRow.rot_2 ^ 2 + unitWRow.rot_3 ^ 2 +
      unitWRow.rot_0 ^ 2 = 1 := by
    norm_num [unitWRow, zeroRow]
  have hm : quatMag unitWRow = 1 := by
    rw [quatMag, hsum, Real.sqrt_one]
  have hn : normQuat unitWRow = (0, 0, 1, 0) := by
    rw [normQuat, hm, if_pos (by norm_num : (1 : ℝ) > 0)]
    norm_num [unitWRow, zeroRow]
  have h1 : rotBytes unitWRow = [128, 128, 255, 128] := by
    rw [rotBytes, hn]
    show [rotByte 0, rotByte 0, rotByte 1, rotByte 0] = _
    rw [rotByte_zero, rotByte_one]
  exact ⟨h1, by rw [h1]; decide⟩

/-! ### C8: zero quaternion is encoded without normalization -/

lemma encodeRow_length (row : SplatRow) : (encodeRow row).length = 32 := by
  simp [encodeRow, f32le, colorBytes, rotBytes]

/-- C8: on any standardized row whose quaternion columns are all zero, the
norm is 0, so the division guard leaves the components unnormalized; the
rotation bytes are `(128,128,128,128)` and a full 32-byte record is still
produced. -/
theorem encode_zero_quat (row : SplatRow) (h0 : row.rot_0 = 0)
    (h1 : row.rot_1 = 0) (h2 : row.rot_2 = 0) (h3 : row.rot_3 = 0) :
    rotBytes row = [128, 128, 128, 128] ∧ (encodeRow row).length = 32 := by
  have hsum : row.rot_1 ^ 2 + row.rot_2 ^ 2 + row.rot_3 ^ 2 +
      row.rot_0 ^ 2 = 0 := by
    rw [h0, h1, h2, h3]; norm_num
  have hm : quatMag row = 0 := by
    rw [quatMag, hsum, Real.sqrt_zero]
  have hn : normQuat row = (0, 0, 0, 0) := by
    rw [normQuat, hm, if_neg (lt_irrefl 0), rotQuatRead, h0, h1, h2, h3]
  refine ⟨?_, encodeRow_length row⟩
  rw [rotBytes, hn]
  show [rotByte 0, rotByte 0, rotByte 0, rotByte 0] = _
  rw [rotByte_zero]

/-- Witness for C8 at the all-zero row. -/
theorem encode_zero_quat_witness :
    zeroRow.rot_0 = 0 ∧
    (rotBytes zeroRow = [128, 128, 128, 128] ∧
      (encodeRow zeroRow).length = 32) :=
  ⟨rfl, encode_zero_quat zeroRow rfl rfl rfl rfl⟩

/-! ### Store and mask lemmas -/

lemma lookup_length {s : Store} {N : Nat} {n : String} {col : List Val}
    (hu : s.uniform N) (h : s.lookup n = some col) : col.length = N := by
  rw [Store.lookup] at h
  obtain ⟨pr, hpr, hsnd⟩ := Option.map_eq_some'.mp h
  exact hsnd ▸ hu pr (List.mem_of_find?_eq_some hpr)

lemma cols_ne_nil {s : Store} {n : String} {col : List Val}
    (h : s.lookup n = some col) : s.cols ≠ [] := by
  intro hnil
  rw [Store.lookup, hnil] at h
  simp at h

lemma numRows_eq {s : Store} {N : Nat} (hu : s.uniform N) (h : s.cols ≠ []) :
    s.numRows = N := by
  rcases hc : s.cols with _ | ⟨c, cs⟩
  · exact absurd hc h
  · rw [Store.numRows, hc]
    simpa using hu c (hc ▸ List.mem_cons_self c cs)

lemma zipWith_and_get (m c : List Bool) (i : Nat)
    (h1 : i < m.length) (h2 : i < c.length) :
    (List.zipWith and m c)[i]? = some (m.get ⟨i, h1⟩ && c.get ⟨i, h2⟩) := by
  induction m generalizing c i with
  | nil => exact absurd h1 (by simp)
  | cons a m ih =>
    cases c with
    | nil => exact absurd h2 (by simp)
    | cons b c =>
      cases i with
      | zero => simp
      | succ j =>
        simpa using ih c j (Nat.lt_of_succ_lt_succ h1) (Nat.lt_of_succ_lt_succ h2)

lemma buildMask_spec (s : Store) (N : Nat) :
    ∀ (props : List String),
      (∀ p ∈ props, ∃ col, s.lookup p = some col ∧ col.length = N) →
      ∀ (m : List Bool), m.length = N →
        ∃ mk, buildMask s props m = .ok mk ∧ mk.length = N ∧
          ∀ i, i < N →
            mk[i]? = (m[i]?).map
              (fun b => b && props.all (fun p => colFiniteB s p i))
  | [], _, m, hm => by
    refine ⟨m, rfl, hm, fun i hi => ?_⟩
    simp
  | p :: ps, hcols, m, hm => by
    obtain ⟨col, hcol, hlen⟩ := hcols p (List.mem_cons_self p ps)
    have hm' : (List.zipWith and m (col.map Val.isFinite)).length = N := by
      rw [List.length_zipWith, List.length_map, hm, hlen, min_self]
    obtain ⟨mk, hmk, hmklen, hmkget⟩ :=
      buildMask_spec s N ps (fun q hq => hcols q (List.mem_cons_of_mem p hq))
        (List.zipWith and m (col.map Val.isFinite)) hm'
    refine ⟨mk, ?_, hmklen, fun i hi => ?_⟩
    · simp only [buildMask, hcol]
      exact hmk
    · have hgm : i < m.length := by rw [hm]; exact hi
      have hgc : i < (col.map Val.isFinite).length := by
        rw [List.length_map, hlen]; exact hi
      have hci : i < col.length := by rw [hlen]; exact hi
      have hcf : colFiniteB s p i = Val.isFinite (col.get ⟨i, hci⟩) := by
        simp only [colFiniteB, hcol, List.getElem?_eq_getElem hci,
          Option.map_some', Option.getD_some, List.get_eq_getElem]
      rw [hmkget i hi, zipWith_and_get m (col.map Val.isFinite) i hgm hgc,
        List.getElem?_eq_getElem hgm]
      simp only [Option.map_some', List.all_cons, hcf, List.get_eq_getElem,
        List.getElem_map, Bool.and_assoc]

lemma buildMask_ok (s : Store) :
    ∀ (props : List String) (m : List Bool),
      (∀ p ∈ props, (s.lookup p).isSome) →
      ∃ mk, buildMask s props m = .ok mk
  | [], m, _ => ⟨m, rfl⟩
  | p :: ps, m, hall => by
    obtain ⟨col, hcol⟩ :=
      Option.isSome_iff_exists.mp (hall p (List.mem_cons_self p ps))
    obtain ⟨mk, hmk⟩ :=
      buildMask_ok s ps (List.zipWith and m (col.map Val.isFinite))
        (fun q hq => hall q (List.mem_cons_of_mem p hq))
    exact ⟨mk, by simp only [buildMask, hcol]; exact hmk⟩

lemma buildMask_ok_lookups (s : Store) :
    ∀ (props : List String) (m mk : List Bool),
      buildMask s props m = .ok mk → ∀ p ∈ props, (s.lookup p).isSome
  | [], _, _, _ => by intro p hp; exact absurd hp (by simp)
  | p :: ps, m, mk, h => by
    intro q hq
    rcases hcol : s.lookup p with _ | col
    · rw [buildMask, hcol] at h
      exact absurd h (by simp)
    · rcases List.mem_cons.mp hq with rfl | hq'
      · rw [hcol]; rfl
      · rw [buildMask, hcol] at h
        exact buildMask_ok_lookups s ps _ mk h q hq'

lemma buildMask_error (s : Store) :
    ∀ (props : List String) (m : List Bool),
      (∃ p ∈ props, s.lookup p = none) →
      ∃ q ∈ props, s.lookup q = none ∧
        buildMask s props m = .error (.schemaError q)
  | [], _, h => by
    obtain ⟨p, hp, _⟩ := h
    exact absurd hp (by simp)
  | p :: ps, m, h => by
    rcases hcol : s.lookup p with _ | col
    · exact ⟨p, List.mem_cons_self p ps, hcol, by rw [buildMask, hcol]⟩
    · obtain ⟨q, hq, hqnone⟩ := h
      rcases List.mem_cons.mp hq with rfl | hq'
      · rw [hcol] at hqnone; exact absurd hqnone (by simp)
      · obtain ⟨r, hr, hrnone, herr⟩ :=
          buildMask_error s ps (List.zipWith and m (col.map Val.isFinite))
            ⟨q, hq', hqnone⟩
        exact ⟨r, List.mem_cons_of_mem p hr, hrnone, by
          rw [buildMask, hcol]; exact herr⟩

lemma maskFilter_nil (mask : List Bool) : maskFilter mask [] = [] := by
  simp [maskFilter]

lemma maskFilter_nil' (col : List Val) : maskFilter [] col = [] := by
  simp [maskFilter]

lemma maskFilter_cons (b : Bool) (ms : List Bool) (v : Val) (vs : List Val) :
    maskFilter (b :: ms) (v :: vs) =
      if b then v :: maskFilter ms vs else maskFilter ms vs := by
  cases b <;> simp [maskFilter]

lemma maskFilter_sublist (mask : List Bool) (col : List Val) :
    (maskFilter mask col).Sublist col := by
  induction col generalizing mask with
  | nil => rw [maskFilter_nil]
  | cons v vs ih =>
    cases mask with
    | nil => rw [maskFilter_nil']; exact List.nil_sublist _
    | cons b ms =>
      rw [maskFilter_cons]
      cases b with
      | false => simpa using List.Sublist.cons v (ih ms)
      | true => simpa using List.Sublist.cons₂ v (ih ms)

lemma maskFilter_length (mask : List Bool) (col : List Val)
    (h : mask.length = col.length) :
    (maskFilter mask col).length = mask.count true := by
  induction col generalizing mask with
  | nil =>
    cases mask with
    | nil => simp [maskFilter_nil]
    | cons b ms => simp at h
  | cons v vs ih =>
    cases mask with
    | nil => simp at h
    | cons b ms =>
      have h' : ms.length = vs.length := by simpa using h
      rw [maskFilter_cons]
      cases b with
      | false => rw [if_neg (by simp), ih ms h']; simp [List.count_cons]
      | true => rw [if_pos rfl]; simp [List.count_cons, ih ms h']

lemma maskFilter_all_true (mask : List Bool) (col : List Val)
    (h : mask.length = col.length) (hall : ∀ b ∈ mask, b = true) :
    maskFilter mask col = col := by
  induction col generalizing mask with
  | nil => rw [maskFilter_nil]
  | cons v vs ih =>
    cases mask with
    | nil => simp at h
    | cons b ms =>
      have hb := hall b (List.mem_cons_self b ms)
      have h' : ms.length = vs.length := by simpa using h
      rw [maskFilter_cons, hb, if_pos rfl,
        ih ms h' (fun x hx => hall x (List.mem_cons_of_mem b hx))]

/-! ### Unfolding `standardize` -/

lemma standardize_error {s : Store} {e : StdErr}
    (h : buildMask s required (List.replicate s.numRows true) = .error e) :
    standardize s = .error e := by
  simp only [standardize, h, Except.bind]

lemma standardize_eq (s : Store) (mk : List Bool)
    (hmk : buildMask s required (List.replicate s.numRows true) = .ok mk)
    {cx cy cz cs0 cs1 cs2 cf0 cf1 cf2 cop cr0w cr1y cr2z cr3w : List Val}
    (hx : s.lookup "x" = some cx) (hy : s.lookup "y" = some cy)
    (hz : s.lookup "z" = some cz)
    (hs0 : s.lookup "scale_0" = some cs0)
    (hs1 : s.lookup "scale_1" = some cs1)
    (hs2 : s.lookup "scale_2" = some cs2)
    (hf0 : s.lookup "f_dc_0" = some cf0)
    (hf1 : s.lookup "f_dc_1" = some cf1)
    (hf2 : s.lookup "f_dc_2" = some cf2)
    (hop : s.lookup "opacity" = some cop)
    (hr0 : s.lookup "rot_0" = some cr0w)
    (hr1 : s.lookup "rot_1" = some cr1y)
    (hr2 : s.lookup "rot_2" = some cr2z)
    (hr3 : s.lookup "rot_3" = some cr3w) :
    standardize s = .ok
      (⟨[("x", maskFilter mk cx), ("y", maskFilter mk cy),
         ("z", maskFilter mk cz),
         ("scale_0", maskFilter mk cs0), ("scale_1", maskFilter mk cs1),
         ("scale_2", maskFilter mk cs2),
         ("rot_0", maskFilter mk cr1y), ("rot_1", maskFilter mk cr2z),
         ("rot_2", maskFilter mk cr3w), ("rot_3", maskFilter mk cr0w),
         ("f_dc_0", maskFilter mk cf0), ("f_dc_1", maskFilter mk cf1),
         ("f_dc_2", maskFilter mk cf2), ("opacity", maskFilter mk cop)]⟩,
       (maskFilter mk cx).length,
       s.numRows - (maskFilter mk cx).length) := by
  simp only [standardize, hmk, getColE, hx, hy, hz, hs0, hs1, hs2, hf0, hf1,
    hf2, hop, hr0, hr1, hr2, hr3, Except.bind, Except.map]

lemma standardize_ok_lookups (s : Store) {nd : Store} {kept dropped : Nat}
    (h : standardize s = .ok (nd, kept, dropped)) :
    ∀ p ∈ required, (s.lookup p).isSome := by
  rcases hbm : buildMask s required (List.replicate s.numRows true)
      with e | mask
  · rw [standardize_error hbm] at h
    exact absurd h (by simp)
  · exact buildMask_ok_lookups s required _ mask hbm

/-! ### C3: schema check precedes everything, incomplete stores fail -/

/-- C3: standardization fails with a `SchemaError` naming a missing
required attribute whenever any of the 14 required attributes is absent —
no standardized store and no counts are produced — and it succeeds
whenever all 14 are present. -/
theorem standardize_schema_guard (s : Store) :
    ((∃ p ∈ required, s.lookup p = none) →
      ∃ q ∈ required, s.lookup q = none ∧
        standardize s = .error (.schemaError q)) ∧
    ((∀ p ∈ required, (s.lookup p).isSome) →
      ∃ out, standardize s = .ok out) := by
  constructor
  · intro hmiss
    obtain ⟨q, hq, hqnone, herr⟩ := buildMask_error s required _ hmiss
    exact ⟨q, hq, hqnone, standardize_error herr⟩
  · intro hall
    obtain ⟨mk, hmk⟩ := buildMask_ok s required _ hall
    obtain ⟨cx, hx⟩ := Option.isSome_iff_exists.mp (hall "x" (by simp [required]))
    obtain ⟨cy, hy⟩ := Option.isSome_iff_exists.mp (hall "y" (by simp [required]))
    obtain ⟨cz, hz⟩ := Option.isSome_iff_exists.mp (hall "z" (by simp [required]))
    obtain ⟨cs0, hs0⟩ :=
      Option.isSome_iff_exists.mp (hall "scale_0" (by simp [required]))
    obtain ⟨cs1, hs1⟩ :=
      Option.isSome_iff_exists.mp (hall "scale_1" (by simp [required]))
    obtain ⟨cs2, hs2⟩ :=
      Option.isSome_iff_exists.mp (hall "scale_2" (by simp [required]))
    obtain ⟨cf0, hf0⟩ :=
      Option.isSome_iff_exists.mp (hall "f_dc_0" (by simp [required]))
    obtain ⟨cf1, hf1⟩ :=
      Option.isSome_iff_exists.mp (hall "f_dc_1" (by simp [required]))
    obtain ⟨cf2, hf2⟩ :=
      Option.isSome_iff_exists.mp (hall "f_dc_2" (by simp [required]))
    obtain ⟨cop, hop⟩ :=
      Option.isSome_iff_exists.mp (hall "opacity" (by simp [required]))
    obtain ⟨cr0, hr0⟩ :=
      Option.isSome_iff_exists.mp (hall "rot_0" (by simp [required]))
    obtain ⟨cr1, hr1⟩ :=
      Option.isSome_iff_exists.mp (hall "rot_1" (by simp [required]))
    obtain ⟨cr2, hr2⟩ :=
      Option.isSome_iff_exists.mp (hall "rot_2" (by simp [required]))
    obtain ⟨cr3, hr3⟩ :=
      Option.isSome_iff_exists.mp (hall "rot_3" (by simp [required]))
    exact ⟨_, standardize_eq s mk hmk hx hy hz hs0 hs1 hs2 hf0 hf1 hf2 hop
      hr0 hr1 hr2 hr3⟩

/-- Witness for C3 at the empty store (every required attribute absent)
and at `sampleStore` (schema complete). -/
theorem standardize_schema_guard_witness :
    ((Store.mk []).lookup "x" = none ∧
      ∃ q ∈ required, (Store.mk []).lookup q = none ∧
        standardize (Store.mk []) = .error (.schemaError q)) ∧
    ∃ out, standardize sampleStore = .ok out :=
  ⟨⟨rfl, (standardize_schema_guard (Store.mk [])).1 ⟨"x", by simp [required], rfl⟩⟩,
   (standardize_schema_guard sampleStore).2 (by decide)⟩

/-! ### C4: canonical column order, relabeling, verbatim copies -/

/-- C4: on a schema-complete store, the standardized output has exactly
the 14 canonical columns in canonical order; its quaternion columns are
the fixed WXYZ→XYZW relabeling of the source's rotation columns, and the
10 other columns are the (row-filtered) source columns unchanged. -/
theorem standardize_canonical (s : Store)
    (hall : ∀ p ∈ required, (s.lookup p).isSome) :
    ∃ nd kept dropped mask,
      buildMask s required (List.replicate s.numRows true) = .ok mask ∧
      standardize s = .ok (nd, kept, dropped) ∧
      nd.cols.map Prod.fst = canonicalOrder ∧
      nd.lookup "x" = (s.lookup "x").map (maskFilter mask) ∧
      nd.lookup "y" = (s.lookup "y").map (maskFilter mask) ∧
      nd.lookup "z" = (s.lookup "z").map (maskFilter mask) ∧
      nd.lookup "scale_0" = (s.lookup "scale_0").map (maskFilter mask) ∧
      nd.lookup "scale_1" = (s.lookup "scale_1").map (maskFilter mask) ∧
      nd.lookup "scale_2" = (s.lookup "scale_2").map (maskFilter mask) ∧
      nd.lookup "f_dc_0" = (s.lookup "f_dc_0").map (maskFilter mask) ∧
      nd.lookup "f_dc_1" = (s.lookup "f_dc_1").map (maskFilter mask) ∧
      nd.lookup "f_dc_2" = (s.lookup "f_dc_2").map (maskFilter mask) ∧
      nd.lookup "opacity" = (s.lookup "opacity").map (maskFilter mask) ∧
      nd.lookup "rot_0" = (s.lookup "rot_1").map (maskFilter mask) ∧
      nd.lookup "rot_1" = (s.lookup "rot_2").map (maskFilter mask) ∧
      nd.lookup "rot_2" = (s.lookup "rot_3").map (maskFilter mask) ∧
      nd.lookup "rot_3" = (s.lookup "rot_0").map (maskFilter mask) := by
  obtain ⟨mk, hmk⟩ := buildMask_ok s required _ hall
  obtain ⟨cx, hx⟩ := Option.isSome_iff_exists.mp (hall "x" (by simp [required]))
  obtain ⟨cy, hy⟩ := Option.isSome_iff_exists.mp (hall "y" (by simp [required]))
  obtain ⟨cz, hz⟩ := Option.isSome_iff_exists.mp (hall "z" (by simp [required]))
  obtain ⟨cs0, hs0⟩ :=
    Option.isSome_iff_exists.mp (hall "scale_0" (by simp [required]))
  obtain ⟨cs1, hs1⟩ :=
    Option.isSome_iff_exists.mp (hall "scale_1" (by simp [required]))
  obtain ⟨cs2, hs2⟩ :=
    Option.isSome_iff_exists.mp (hall "scale_2" (by simp [required]))
  obtain ⟨cf0, hf0⟩ :=
    Option.isSome_iff_exists.mp (hall "f_dc_0" (by simp [required]))
  obtain ⟨cf1, hf1⟩ :=
    Option.isSome_iff_exists.mp (hall "f_dc_1" (by simp [required]))
  obtain ⟨cf2, hf2⟩ :=
    Option.isSome_iff_exists.mp (hall "f_dc_2" (by simp [required]))
  obtain ⟨cop, hop⟩ :=
    Option.isSome_iff_exists.mp (hall "opacity" (by simp [required]))
  obtain ⟨cr0, hr0⟩ :=
    Option.isSome_iff_exists.mp (hall "rot_0" (by simp [required]))
  obtain ⟨cr1, hr1⟩ :=
    Option.isSome_iff_exists.mp (hall "rot_1" (by simp [required]))
  obtain ⟨cr2, hr2⟩ :=
    Option.isSome_iff_exists.mp (hall "rot_2" (by simp [required]))
  obtain ⟨cr3, hr3⟩ :=
    Option.isSome_iff_exists.mp (hall "rot_3" (by simp [required]))
  refine ⟨_, _, _, mk, hmk,
    standardize_eq s mk hmk hx hy hz hs0 hs1 hs2 hf0 hf1 hf2 hop
      hr0 hr1 hr2 hr3, rfl, ?_, ?_, ?_, ?_, ?_, ?_, ?_, ?_, ?_, ?_, ?_, ?_,
    ?_, ?_⟩ <;>
    simp only [hx, hy, hz, hs0, hs1, hs2, hf0, hf1, hf2, hop, hr0, hr1, hr2,
      hr3, Option.map_some'] <;> rfl

/-- Witness for C4 at the one-row `sampleStore`. -/
theorem standardize_canonical_witness :
    ∃ nd kept dropped mask,
      buildMask sampleStore required
        (List.replicate sampleStore.numRows true) = .ok mask ∧
      standardize sampleStore = .ok (nd, kept, dropped) ∧
      nd.cols.map Prod.fst = canonicalOrder ∧
      nd.lookup "x" = (sampleStore.lookup "x").map (maskFilter mask) ∧
      nd.lookup "y" = (sampleStore.lookup "y").map (maskFilter mask) ∧
      nd.lookup "z" = (sampleStore.lookup "z").map (maskFilter mask) ∧
      nd.lookup "scale_0" =
        (sampleStore.lookup "scale_0").map (maskFilter mask) ∧
      nd.lookup "scale_1" =
        (sampleStore.lookup "scale_1").map (maskFilter mask) ∧
      nd.lookup "scale_2" =
        (sampleStore.lookup "scale_2").map (maskFilter mask) ∧
      nd.lookup "f_dc_0" = (sampleStore.lookup "f_dc_0").map (maskFilter mask) ∧
      nd.lookup "f_dc_1" = (sampleStore.lookup "f_dc_1").map (maskFilter mask) ∧
      nd.lookup "f_dc_2" = (sampleStore.lookup "f_dc_2").map (maskFilter mask) ∧
      nd.lookup "opacity" =
        (sampleStore.lookup "opacity").map (maskFilter mask) ∧
      nd.lookup "rot_0" = (sampleStore.lookup "rot_1").map (maskFilter mask) ∧
      nd.lookup "rot_1" = (sampleStore.lookup "rot_2").map (maskFilter mask) ∧
      nd.lookup "rot_2" = (sampleStore.lookup "rot_3").map (maskFilter mask) ∧
      nd.lookup "rot_3" = (sampleStore.lookup "rot_0").map (maskFilter mask) :=
  standardize_canonical sampleStore (by decide)

/-! ### C5: stable finiteness row filter and count conservation -/

/-- C5: on a schema-complete store of `N` rows, the mask marks exactly the
rows whose 14 required values are all finite; the filter is stable (each
filtered column is a sublist of its source column); `kept` counts the
marked rows; `kept + dropped = N` always, and `kept = N` when every
required value is finite. -/
theorem standardize_row_filter (s : Store) (N : Nat) (hu : s.uniform N)
    (hall : ∀ p ∈ required, (s.lookup p).isSome) :
    ∃ mask nd kept dropped,
      buildMask s required (List.replicate s.numRows true) = .ok mask ∧
      standardize s = .ok (nd, kept, dropped) ∧
      mask.length = N ∧
      (∀ i, i < N →
        mask[i]? = some (required.all (fun p => colFiniteB s p i))) ∧
      kept = mask.count true ∧
      kept + dropped = N ∧
      ((∀ p ∈ required, ∀ col, s.lookup p = some col →
          ∀ v ∈ col, v.isFinite = true) → kept = N) ∧
      (∀ col, (maskFilter mask col).Sublist col) := by
  have hcols : ∀ p ∈ required, ∃ col, s.lookup p = some col ∧
      col.length = N := by
    intro p hp
    obtain ⟨c, hc⟩ := Option.isSome_iff_exists.mp (hall p hp)
    exact ⟨c, hc, lookup_length hu hc⟩
  obtain ⟨cx, hx⟩ := Option.isSome_iff_exists.mp (hall "x" (by simp [required]))
  obtain ⟨cy, hy⟩ := Option.isSome_iff_exists.mp (hall "y" (by simp [required]))
  obtain ⟨cz, hz⟩ := Option.isSome_iff_exists.mp (hall "z" (by simp [required]))
  obtain ⟨cs0, hs0⟩ :=
    Option.isSome_iff_exists.mp (hall "scale_0" (by simp [required]))
  obtain ⟨cs1, hs1⟩ :=
    Option.isSome_iff_exists.mp (hall "scale_1" (by simp [required]))
  obtain ⟨cs2, hs2⟩ :=
    Option.isSome_iff_exists.mp (hall "scale_2" (by simp [required]))
  obtain ⟨cf0, hf0⟩ :=
    Option.isSome_iff_exists.mp (hall "f_dc_0" (by simp [required]))
  obtain ⟨cf1, hf1⟩ :=
    Option.isSome_iff_exists.mp (hall "f_dc_1" (by simp [required]))
  obtain ⟨cf2, hf2⟩ :=
    Option.isSome_iff_exists.mp (hall "f_dc_2" (by simp [required]))
  obtain ⟨cop, hop⟩ :=
    Option.isSome_iff_exists.mp (hall "opacity" (by simp [required]))
  obtain ⟨cr0, hr0⟩ :=
    Option.isSome_iff_exists.mp (hall "rot_0" (by simp [required]))
  obtain ⟨cr1, hr1⟩ :=
    Option.isSome_iff_exists.mp (hall "rot_1" (by simp [required]))
  obtain ⟨cr2, hr2⟩ :=
    Option.isSome_iff_exists.mp (hall "rot_2" (by simp [required]))
  obtain ⟨cr3, hr3⟩ :=
    Option.isSome_iff_exists.mp (hall "rot_3" (by simp [required]))
  have hnum : s.numRows = N := numRows_eq hu (cols_ne_nil hx)
  have hrep : (List.replicate s.numRows true).length = N := by
    rw [List.length_replicate, hnum]
  obtain ⟨mask, hmk, hmlen, hmget⟩ := buildMask_spec s N required hcols _ hrep
  have hxlen : cx.length = N := lookup_length hu hx
  have hkeq : (maskFilter mask cx).length = mask.count true :=
    maskFilter_length mask cx (by rw [hmlen, hxlen])
  have hkle : mask.count true ≤ N := by
    rw [← hmlen]; exact List.count_le_length true mask
  refine ⟨mask, _, _, _, hmk,
    standardize_eq s mask hmk hx hy hz hs0 hs1 hs2 hf0 hf1 hf2 hop
      hr0 hr1 hr2 hr3, hmlen, ?_, hkeq, ?_, ?_, fun col => maskFilter_sublist mask col⟩
  · intro i hi
    rw [hmget i hi, List.getElem?_replicate, if_pos (by rw [hnum]; exact hi)]
    simp
  · rw [hnum, hkeq]
    exact Nat.add_sub_cancel' hkle
  · intro hfin
    have hmask_true : ∀ b ∈ mask, b = true := by
      intro b hb
      obtain ⟨i, hbi⟩ := List.mem_iff_getElem?.mp hb
      have hilt : i < N := by
        rw [← hmlen]
        by_contra hge
        rw [List.getElem?_eq_none (Nat.le_of_not_lt hge)] at hbi
        exact absurd hbi (by simp)
      rw [hmget i hilt, List.getElem?_replicate,
        if_pos (by rw [hnum]; exact hilt)] at hbi
      have hb' : b = required.all (fun p => colFiniteB s p i) := by
        simpa using hbi.symm
      rw [hb', List.all_eq_true]
      intro p hp
      obtain ⟨col, hcol, hclen⟩ := hcols p hp
      have hic : i < col.length := by rw [hclen]; exact hilt
      simp only [colFiniteB, hcol, List.getElem?_eq_getElem hic,
        Option.map_some', Option.getD_some]
      exact hfin p hp col hcol _ (List.getElem_mem hic)
    rw [maskFilter_all_true mask cx (by rw [hmlen, hxlen]) hmask_true, hxlen]

/-- Witness for C5 at the one-row `sampleStore` (`N = 1`, everything
finite, so one row kept, none dropped). -/
theorem standardize_row_filter_witness :
    ∃ mask nd kept dropped,
      buildMask sampleStore required
        (List.replicate sampleStore.numRows true) = .ok mask ∧
      standardize sampleStore = .ok (nd, kept, dropped) ∧
      mask.length = 1 ∧
      (∀ i, i < 1 →
        mask[i]? = some (required.all (fun p => colFiniteB sampleStore p i))) ∧
      kept = mask.count true ∧
      kept + dropped = 1 ∧
      ((∀ p ∈ required, ∀ col, sampleStore.lookup p = some col →
          ∀ v ∈ col, v.isFinite = true) → kept = 1) ∧
      (∀ col, (maskFilter mask col).Sublist col) :=
  standardize_row_filter sampleStore 1
    (by intro p hp; fin_cases hp <;> rfl) (by decide)

/-! ### C6: 32-byte record layout, `32 × kept` total size -/

lemma encodeSplat_cons (r : SplatRow) (rs : List SplatRow) :
    encodeSplat (r :: rs) = encodeRow r ++ encodeSplat rs := rfl

/-- C6: the compact output is exactly 32 bytes per row (`32 × kept` in
total for a standardized store, whose columns all have length `kept`);
record `i` is the three position float32s, the three `exp`-decoded scale
float32s, the four color bytes R,G,B,A and the four quaternion bytes, in
that order. -/
theorem encodeSplat_size_layout :
    (∀ rows : List SplatRow, (encodeSplat rows).length = 32 * rows.length) ∧
    (∀ (rows : List SplatRow) (i : Nat) (h : i < rows.length),
      ((encodeSplat rows).drop (32 * i)).take 32 =
        f32le (rows.get ⟨i, h⟩).x ++ f32le (rows.get ⟨i, h⟩).y ++
          f32le (rows.get ⟨i, h⟩).z ++
          f32le (Real.exp (rows.get ⟨i, h⟩).scale_0) ++
          f32le (Real.exp (rows.get ⟨i, h⟩).scale_1) ++
          f32le (Real.exp (rows.get ⟨i, h⟩).scale_2) ++
          (colorBytes (rows.get ⟨i, h⟩)).map WireByte.u8 ++
          (rotBytes (rows.get ⟨i, h⟩)).map WireByte.u8) ∧
    (∀ (s : Store) (N : Nat) (nd : Store) (kept dropped : Nat),
      s.uniform N → standardize s = .ok (nd, kept, dropped) →
      nd.uniform kept) := by
  refine ⟨?_, ?_, ?_⟩
  · intro rows
    induction rows with
    | nil => rfl
    | cons r rs ih =>
      rw [encodeSplat_cons, List.length_append, encodeRow_length, ih,
        List.length_cons]
      ring
  · intro rows
    induction rows with
    | nil => intro i h; exact absurd h (by simp)
    | cons r rs ih =>
      intro i h
      cases i with
      | zero =>
        rw [Nat.mul_zero, encodeSplat_cons, List.drop_zero,
          ← encodeRow_length r, List.take_left]
        rfl
      | succ j =>
        have h32 : 32 * (j + 1) = (encodeRow r).length + 32 * j := by
          rw [encodeRow_length]; ring
        rw [encodeSplat_cons, h32, List.drop_append]
        exact ih j (Nat.lt_of_succ_lt_succ h)
  · intro s N nd kept dropped hu hstd
    have hall := standardize_ok_lookups s hstd
    have hcols : ∀ p ∈ required, ∃ col, s.lookup p = some col ∧
        col.length = N := by
      intro p hp
      obtain ⟨c, hc⟩ := Option.isSome_iff_exists.mp (hall p hp)
      exact ⟨c, hc, lookup_length hu hc⟩
    obtain ⟨cx, hx⟩ :=
      Option.isSome_iff_exists.mp (hall "x" (by simp [required]))
    obtain ⟨cy, hy⟩ :=
      Option.isSome_iff_exists.mp (hall "y" (by simp [required]))
    obtain ⟨cz, hz⟩ :=
      Option.isSome_iff_exists.mp (hall "z" (by simp [required]))
    obtain ⟨cs0, hs0⟩ :=
      Option.isSome_iff_exists.mp (hall "scale_0" (by simp [required]))
    obtain ⟨cs1, hs1⟩ :=
      Option.isSome_iff_exists.mp (hall "scale_1" (by simp [required]))
    obtain ⟨cs2, hs2⟩ :=
      Option.isSome_iff_exists.mp (hall "scale_2" (by simp [required]))
    obtain ⟨cf0, hf0⟩ :=
      Option.isSome_iff_exists.mp (hall "f_dc_0" (by simp [required]))
    obtain ⟨cf1, hf1⟩ :=
      Option.isSome_iff_exists.mp (hall "f_dc_1" (by simp [required]))
    obtain ⟨cf2, hf2⟩ :=
      Option.isSome_iff_exists.mp (hall "f_dc_2" (by simp [required]))
    obtain ⟨cop, hop⟩ :=
      Option.isSome_iff_exists.mp (hall "opacity" (by simp [required]))
    obtain ⟨cr0, hr0⟩ :=
      Option.isSome_iff_exists.mp (hall "rot_0" (by simp [required]))
    obtain ⟨cr1, hr1⟩ :=
      Option.isSome_iff_exists.mp (hall "rot_1" (by simp [required]))
    obtain ⟨cr2, hr2⟩ :=
      Option.isSome_iff_exists.mp (hall "rot_2" (by simp [required]))
    obtain ⟨cr3, hr3⟩ :=
      Option.isSome_iff_exists.mp (hall "rot_3" (by simp [required]))
    have hnum : s.numRows = N := numRows_eq hu (cols_ne_nil hx)
    have hrep : (List.replicate s.numRows true).length = N := by
      rw [List.length_replicate, hnum]
    rcases hbm : buildMask s required (List.replicate s.numRows true)
        with e | mask
    · rw [standardize_error hbm] at hstd
      exact absurd hstd (by simp)
    obtain ⟨mask', hmk', hmlen', _⟩ := buildMask_spec s N required hcols _ hrep
    rw [hbm] at hmk'
    have hmm : mask' = mask := Except.ok.inj hmk'.symm
    rw [hmm] at hmlen'
    have heq := standardize_eq s mask hbm hx hy hz hs0 hs1 hs2 hf0 hf1 hf2
      hop hr0 hr1 hr2 hr3
    rw [heq] at hstd
    have h1 := Except.ok.inj hstd
    rw [Prod.mk.injEq, Prod.mk.injEq] at h1
    obtain ⟨hnd, hkept, _⟩ := h1
    have hxlen : cx.length = N := lookup_length hu hx
    have hml : ∀ (c : List Val), c.length = N →
        (maskFilter mask c).length = mask.count true := fun c hc =>
      maskFilter_length mask c (by rw [hmlen', hc])
    have hone : ∀ (c : List Val), c.length = N →
        (maskFilter mask c).length = (maskFilter mask cx).length :=
      fun c hc => (hml c hc).trans (hml cx hxlen).symm
    subst hnd hkept
    intro p hp
    simp only [List.mem_cons, List.not_mem_nil, or_false] at hp
    rcases hp with rfl | rfl | rfl | rfl | rfl | rfl | rfl | rfl | rfl | rfl |
      rfl | rfl | rfl | rfl
    · exact hone cx hxlen
    · exact hone cy (lookup_length hu hy)
    · exact hone cz (lookup_length hu hz)
    · exact hone cs0 (lookup_length hu hs0)
    · exact hone cs1 (lookup_length hu hs1)
    · exact hone cs2 (lookup_length hu hs2)
    · exact hone cr1 (lookup_length hu hr1)
    · exact hone cr2 (lookup_length hu hr2)
    · exact hone cr3 (lookup_length hu hr3)
    · exact hone cr0 (lookup_length hu hr0)
    · exact hone cf0 (lookup_length hu hf0)
    · exact hone cf1 (lookup_length hu hf1)
    · exact hone cf2 (lookup_length hu hf2)
    · exact hone cop (lookup_length hu hop)

/-- Witness for C6: a one-row stream and the one-row `sampleStore`. -/
theorem encodeSplat_size_layout_witness :
    (encodeSplat [zeroRow]).length = 32 * ([zeroRow] : List SplatRow).length ∧
    (((encodeSplat [zeroRow]).drop (32 * 0)).take 32 =
      f32le zeroRow.x ++ f32le zeroRow.y ++ f32le zeroRow.z ++
        f32le (Real.exp zeroRow.scale_0) ++ f32le (Real.exp zeroRow.scale_1) ++
        f32le (Real.exp zeroRow.scale_2) ++
        (colorBytes zeroRow).map WireByte.u8 ++
        (rotBytes zeroRow).map WireByte.u8) ∧
    standardize sampleStore = .ok (canonSample, 1, 0) ∧
    Store.uniform canonSample 1 :=
  ⟨encodeSplat_size_layout.1 [zeroRow],
   encodeSplat_size_layout.2.1 [zeroRow] 0 (by norm_num),
   rfl,
   encodeSplat_size_layout.2.2 sampleStore 1 canonSample 1 0
     (by intro p hp; fin_cases hp <;> rfl) rfl⟩

/-! ### C10: the 3DGS-render import requires `f_rest_0`, EasyEnv does not -/

/-- C10: the 3DGS-render Import PLY operator's check lists every absent
required attribute and cancels whenever one is missing; its required list
includes `f_rest_0`, so a mesh carrying exactly the canonical vertex
schema is cancelled with `f_rest_0` as the (only) reported missing name,
while EasyEnv's own import path accepts that schema and never requires
`f_rest_0`. -/
theorem kiri_requires_f_rest0 :
    (∀ (attrs : List String) (a : String),
      a ∈ missingAttrs kiriRequiredAttributes attrs ↔
        a ∈ kiriRequiredAttributes ∧ a ∉ attrs) ∧
    (∀ attrs : List String,
      (∃ a ∈ kiriRequiredAttributes, a ∉ attrs) →
        kiriImportPlyCheck attrs =
          .cancelled (missingAttrs kiriRequiredAttributes attrs)) ∧
    kiriImportPlyCheck canonicalOrder = .cancelled ["f_rest_0"] ∧
    easyenvImportCheck canonicalOrder = .proceed ∧
    "f_rest_0" ∉ easyenvRequiredAttributes := by
  have hmem : ∀ (attrs : List String) (a : String),
      a ∈ missingAttrs kiriRequiredAttributes attrs ↔
        a ∈ kiriRequiredAttributes ∧ a ∉ attrs := by
    intro attrs a
    simp [missingAttrs, List.mem_filter]
  refine ⟨hmem, ?_, by decide, by decide, by decide⟩
  intro attrs ⟨a, ha, hnot⟩
  have hne : ¬ (missingAttrs kiriRequiredAttributes attrs).isEmpty = true := by
    rw [List.isEmpty_iff]
    intro hnil
    exact absurd ((hmem attrs a).mpr ⟨ha, hnot⟩) (by rw [hnil]; simp)
  rw [kiriImportPlyCheck, if_neg hne]

/-- Witness for C10: the canonical schema misses exactly `f_rest_0`. -/
theorem kiri_requires_f_rest0_witness :
    kiriImportPlyCheck canonicalOrder =
      .cancelled (missingAttrs kiriRequiredAttributes canonicalOrder) :=
  kiri_requires_f_rest0.2.1 canonicalOrder ⟨"f_rest_0", by decide, by decide⟩

end EasyEnv
